import Mathlib

/-!
Shallow embedding of the CapriAI content pipeline
(chunker.py, change_detector.py, ingest.py, retriever_api.py, upsert_pinecone.py)
together with proofs about the properties stated in the design document.

Text is modelled as `List Char`, Python dicts as association lists, machine
floats used only as exact small powers of two are modelled as `ℚ`, and the two
external SaaS services (embedding API, vector database) are modelled as
oracles supplied as function arguments.
-/

namespace CapriAI

/-! ## chunker.py

`chunk_text(text, size, overlap)`:

    chunks = []
    start = 0
    text_length = len(text)
    while start < text_length:
        end = start + size
        chunk = text[start:end]
        chunks.append(chunk)
        start = end - overlap
        if start < 0:
            start = 0
    return chunks

`start` is a Python int; `end - overlap` can only be negative when
`overlap > start + size`, and the code clamps that case to 0.  With `start`
modelled as `Nat`, truncated subtraction `start + size - overlap` yields 0 in
exactly that case, so Nat subtraction is byte-for-byte the Python update
including its clamp.  The while loop is modelled with explicit fuel; fuel
`text.length + 1` is sufficient whenever `overlap < size` (proved below). -/

/-- Python slice `text[start:stop]` for `0 ≤ start ≤ stop`. -/
def pySlice (text : List Char) (start stop : Nat) : List Char :=
  (text.drop start).take (stop - start)

/-- The while loop of `chunk_text`, one fuel unit per iteration. -/
def chunkTextFuel (text : List Char) (size overlap : Nat) : Nat → Nat → List (List Char)
  | 0, _ => []
  | fuel + 1, start =>
    if start < text.length then
      pySlice text start (start + size)
        :: chunkTextFuel text size overlap fuel (start + size - overlap)
    else []

/-- `chunk_text` (chunker.py lines 23–34).  Fuel `text.length + 1` covers every
run of the loop when `overlap < size`, since `start` grows by at least one per
iteration. -/
def chunk_text (text : List Char) (size overlap : Nat) : List (List Char) :=
  chunkTextFuel text size overlap (text.length + 1) 0

/-- Concatenation of a fragment list in which every fragment after the first
is first trimmed of its leading `overlap` characters (the reconstruction
operation named by the design document). -/
def chunkTrimConcat (chunks : List (List Char)) (overlap : Nat) : List Char :=
  match chunks with
  | [] => []
  | c :: rest => c ++ (rest.map (List.drop overlap)).flatten

lemma chunkTextFuel_stable (text : List Char) (size overlap : Nat) (h : overlap < size) :
    ∀ f₁ f₂ start, text.length - start < f₁ → text.length - start < f₂ →
      chunkTextFuel text size overlap f₁ start = chunkTextFuel text size overlap f₂ start := by
  intro f₁
  induction f₁ with
  | zero => intro f₂ start h1 h2; omega
  | succ f ih =>
    intro f₂ start h1 h2
    cases f₂ with
    | zero => omega
    | succ f₂ =>
      simp only [chunkTextFuel]
      by_cases hs : start < text.length
      · simp only [hs, if_true]
        have := ih f₂ (start + size - overlap) (by omega) (by omega)
        rw [this]
      · simp [hs]

lemma chunkTextFuel_step (text : List Char) (size overlap : Nat) (h : overlap < size)
    (fuel start : Nat) (hf : text.length - start < fuel) :
    chunkTextFuel text size overlap fuel start
      = if start < text.length then
          pySlice text start (start + size)
            :: chunkTextFuel text size overlap fuel (start + size - overlap)
        else [] := by
  cases fuel with
  | zero => omega
  | succ f =>
    conv_lhs => rw [chunkTextFuel]
    by_cases hs : start < text.length
    · simp only [hs, if_true]
      have := chunkTextFuel_stable text size overlap h f (f + 1)
        (start + size - overlap) (by omega) (by omega)
      rw [this]
    · simp [hs]

lemma chunk_text_eq_fuel (text : List Char) (size overlap : Nat) (h : overlap < size)
    (fuel : Nat) (hf : text.length < fuel) :
    chunk_text text size overlap = chunkTextFuel text size overlap fuel 0 :=
  chunkTextFuel_stable text size overlap h (text.length + 1) fuel 0 (by omega) (by omega)

lemma chunkTextFuel_length (text : List Char) (size overlap : Nat) (h : overlap < size) :
    ∀ fuel start, text.length - start < fuel →
      (chunkTextFuel text size overlap fuel start).length
        = (text.length - start + (size - overlap) - 1) / (size - overlap) := by
  intro fuel
  induction fuel with
  | zero => intro start h1; omega
  | succ f ih =>
    intro start h1
    simp only [chunkTextFuel]
    by_cases hs : start < text.length
    · simp only [hs, if_true, List.length_cons]
      rw [ih (start + size - overlap) (by omega)]
      have hD1 : 1 ≤ size - overlap := by omega
      have hx1 : 1 ≤ text.length - start := by omega
      set D := size - overlap with hD
      set x := text.length - start with hx
      have hsub : text.length - (start + size - overlap) = x - D := by omega
      rw [hsub]
      rcases le_or_lt x D with hc | hc
      · have e1 : x - D + D - 1 = 0 + D - 1 := by omega
        have e2 : (0 + D - 1) / D = 0 := Nat.div_eq_of_lt (by omega)
        have e3 : x + D - 1 = (x - 1) + D := by omega
        have e4 : (x - 1) / D = 0 := Nat.div_eq_of_lt (by omega)
        rw [e1, e2, e3, Nat.add_div_right _ (by omega), e4]
      · have e1 : x - D + D - 1 = (x - 1 - D) + D := by omega
        have e3 : x + D - 1 = (x - 1 - D) + D + D := by omega
        rw [e1, e3, Nat.add_div_right _ (by omega), Nat.add_div_right _ (by omega),
          Nat.add_div_right _ (by omega)]
    · simp only [hs, if_false, List.length_nil]
      have hx0 : text.length - start = 0 := by omega
      rw [hx0]
      exact (Nat.div_eq_of_lt (by omega)).symm

/-- Fragment count of `chunk_text`: always `⌈L / (W − O)⌉`, written with
truncated Nat subtraction/division (0 when `L = 0`). -/
lemma chunk_text_length (text : List Char) (size overlap : Nat) (h : overlap < size) :
    (chunk_text text size overlap).length
      = (text.length + (size - overlap) - 1) / (size - overlap) := by
  have := chunkTextFuel_length text size overlap h (text.length + 1) 0 (by omega)
  simpa [chunk_text] using this

lemma chunkTextFuel_flatten_drop (text : List Char) (size overlap : Nat) (h : overlap < size) :
    ∀ fuel start, text.length - start < fuel →
      ((chunkTextFuel text size overlap fuel start).map (List.drop overlap)).flatten
        = text.drop (start + overlap) := by
  intro fuel
  induction fuel with
  | zero => intro start h1; omega
  | succ f ih =>
    intro start h1
    simp only [chunkTextFuel]
    by_cases hs : start < text.length
    · simp only [hs, if_true, List.map_cons, List.flatten_cons]
      rw [ih (start + size - overlap) (by omega)]
      have e1 : start + size - overlap + overlap = start + size := by omega
      rw [e1]
      show ((text.drop start).take (start + size - start)).drop overlap
            ++ text.drop (start + size) = text.drop (start + overlap)
      have e2 : start + size - start = size := by omega
      rw [e2, List.drop_take, List.drop_drop]
      have e3 : text.drop (start + size)
          = (text.drop (start + overlap)).drop (size - overlap) := by
        rw [List.drop_drop]
        congr 1
        omega
      rw [e3, List.take_append_drop]
    · simp only [hs, if_false, List.map_nil, List.flatten_nil]
      exact (List.drop_eq_nil_of_le (by omega)).symm

/-- Trim-and-concatenate applied to the fragments of `chunk_text`
reconstructs the input text exactly. -/
lemma chunk_text_trimConcat (text : List Char) (size overlap : Nat) (h : overlap < size) :
    chunkTrimConcat (chunk_text text size overlap) overlap = text := by
  rcases Nat.eq_zero_or_pos text.length with h0 | hpos
  · have htext : text = [] := List.eq_nil_of_length_eq_zero h0
    subst htext
    rfl
  · rw [chunk_text, chunkTextFuel_step text size overlap h (text.length + 1) 0 (by omega),
      if_pos hpos]
    show pySlice text 0 (0 + size)
        ++ ((chunkTextFuel text size overlap (text.length + 1)
              (0 + size - overlap)).map (List.drop overlap)).flatten = text
    rw [chunkTextFuel_flatten_drop text size overlap h (text.length + 1)
      (0 + size - overlap) (by omega)]
    have e1 : 0 + size - overlap + overlap = size := by omega
    rw [e1]
    show (text.drop 0).take (0 + size - 0) ++ text.drop size = text
    simp only [List.drop_zero, Nat.zero_add, Nat.sub_zero]
    exact List.take_append_drop size text

lemma pySlice_of_length_le (text : List Char) (a b : Nat) (hb : text.length ≤ b) :
    pySlice text a b = text.drop a := by
  unfold pySlice
  apply List.take_of_length_le
  simp only [List.length_drop]
  omega

/-- Concrete run of `chunk_text` on any 3000-character input with the default
parameters: two fragments, the whole text followed by its final 600
characters. -/
lemma chunk_text_3000_run (text : List Char) (hL : text.length = 3000) :
    chunk_text text 3000 600 = [pySlice text 0 3000, pySlice text 2400 3000] := by
  have h : (600 : Nat) < 3000 := by norm_num
  rw [chunk_text, chunkTextFuel_step text 3000 600 h _ 0 (by omega), if_pos (by omega)]
  have e1 : 0 + 3000 - 600 = 2400 := by norm_num
  rw [e1, chunkTextFuel_step text 3000 600 h _ 2400 (by omega), if_pos (by omega)]
  have e2 : 2400 + 3000 - 600 = 4800 := by norm_num
  rw [e2, chunkTextFuel_step text 3000 600 h _ 4800 (by omega), if_neg (by omega)]
  have e3 : pySlice text 0 (0 + 3000) = pySlice text 0 3000 := by norm_num
  have e4 : pySlice text 2400 (2400 + 3000) = pySlice text 2400 3000 := by
    rw [pySlice_of_length_le text 2400 (2400 + 3000) (by omega),
      pySlice_of_length_le text 2400 3000 (by omega)]
  rw [e3, e4]

/-- Concrete run of `chunk_text` on any 3600-character input with the default
parameters: fragments `text[0:3000]` and `text[2400:3600]`. -/
lemma chunk_text_3600_run (text : List Char) (hL : text.length = 3600) :
    chunk_text text 3000 600 = [pySlice text 0 3000, pySlice text 2400 3600] := by
  have h : (600 : Nat) < 3000 := by norm_num
  rw [chunk_text, chunkTextFuel_step text 3000 600 h _ 0 (by omega), if_pos (by omega)]
  have e1 : 0 + 3000 - 600 = 2400 := by norm_num
  rw [e1, chunkTextFuel_step text 3000 600 h _ 2400 (by omega), if_pos (by omega)]
  have e2 : 2400 + 3000 - 600 = 4800 := by norm_num
  rw [e2, chunkTextFuel_step text 3000 600 h _ 4800 (by omega), if_neg (by omega)]
  have e3 : pySlice text 0 (0 + 3000) = pySlice text 0 3000 := by norm_num
  have e4 : pySlice text 2400 (2400 + 3000) = pySlice text 2400 3600 := by
    rw [pySlice_of_length_le text 2400 (2400 + 3000) (by omega),
      pySlice_of_length_le text 2400 3600 (by omega)]
  rw [e3, e4]

/-! ## change_detector.py

The detector's `run()` loads the hash-record store (`.state_hashes.json`, a
Python dict), globs the snapshot directory, and for every snapshot whose
SHA-256 hex digest differs from the recorded one appends a changelog entry and
updates the dict; it rewrites the store only when something changed, and
returns early (touching nothing) when the directory holds no snapshot.

The store is modelled as an association list with Python-dict update
semantics (replace in place, else append), a snapshot directory as a list of
`(filename, content)` pairs, and `hashlib.sha256(...).hexdigest()` as an
opaque function argument `hash : String → String`.  The `detected_at`
wall-clock timestamp of a changelog entry is not modelled. -/

/-- `state.get(name)` on the modelled store. -/
def lookupS : List (String × String) → String → Option String
  | [], _ => none
  | (k, v) :: rest, key => if k = key then some v else lookupS rest key

/-- `state[name] = h` on the modelled store (replace in place, else append),
Python dict assignment. -/
def insertS : List (String × String) → String → String → List (String × String)
  | [], key, val => [(key, val)]
  | (k, v) :: rest, key, val =>
    if k = key then (k, val) :: rest else (k, v) :: insertS rest key val

/-- A changelog entry (change_detector.py lines 60–65), minus the
`detected_at` timestamp. -/
structure ChangeEntry where
  file : String
  old_hash : Option String
  new_hash : String
  deriving DecidableEq, Repr

/-- The per-file loop of `run()` (change_detector.py lines 55–70): state,
changelog and the `changed` flag threaded through the files in order. -/
def detectLoop (hash : String → String) :
    List (String × String) → List (String × String) → List ChangeEntry → Bool →
      List (String × String) × List ChangeEntry × Bool
  | [], st, log, changed => (st, log, changed)
  | (name, content) :: rest, st, log, changed =>
    if lookupS st name = some (hash content) then
      detectLoop hash rest st log changed
    else
      detectLoop hash rest (insertS st name (hash content))
        (log ++ [{ file := name, old_hash := lookupS st name, new_hash := hash content }])
        true

/-- `run()` (change_detector.py lines 48–75): result is the persisted store
and changelog after the run.  An empty snapshot directory is an early return;
the store file is rewritten only when the `changed` flag was set (changelog
entries are appended to disk immediately inside the loop). -/
def runDetector (hash : String → String) (files : List (String × String))
    (st : List (String × String)) (log : List ChangeEntry) :
    List (String × String) × List ChangeEntry :=
  if files.isEmpty then (st, log)
  else
    ((if (detectLoop hash files st log false).2.2 then (detectLoop hash files st log false).1
      else st),
     (detectLoop hash files st log false).2.1)

lemma lookupS_insertS_self (st : List (String × String)) (k v : String) :
    lookupS (insertS st k v) k = some v := by
  induction st with
  | nil => simp [insertS, lookupS]
  | cons p rest ih =>
    obtain ⟨a, b⟩ := p
    by_cases hk : a = k
    · simp [insertS, lookupS, hk]
    · simp [insertS, lookupS, hk, ih]

lemma lookupS_insertS_ne (st : List (String × String)) (k v q : String) (h : q ≠ k) :
    lookupS (insertS st k v) q = lookupS st q := by
  induction st with
  | nil =>
    simp only [insertS, lookupS]
    rw [if_neg (Ne.symm h)]
  | cons p rest ih =>
    obtain ⟨a, b⟩ := p
    by_cases hk : a = k
    · subst hk
      simp only [insertS, if_pos rfl, lookupS]
      rw [if_neg (Ne.symm h), if_neg (Ne.symm h)]
    · simp only [insertS, if_neg hk, lookupS]
      by_cases hq : a = q
      · simp [hq]
      · simp [hq, ih]

lemma detectLoop_lookup_not_mem (hash : String → String) (files : List (String × String)) :
    ∀ st log changed k, k ∉ files.map Prod.fst →
      lookupS (detectLoop hash files st log changed).1 k = lookupS st k := by
  induction files with
  | nil => intro st log changed k _; rfl
  | cons p rest ih =>
    intro st log changed k hk
    obtain ⟨name, content⟩ := p
    simp only [List.map_cons, List.mem_cons, not_or] at hk
    simp only [detectLoop]
    by_cases hold : lookupS st name = some (hash content)
    · rw [if_pos hold]
      exact ih _ _ _ _ hk.2
    · rw [if_neg hold, ih _ _ _ _ hk.2]
      exact lookupS_insertS_ne _ _ _ _ hk.1

lemma detectLoop_lookup_mem (hash : String → String) (files : List (String × String)) :
    ∀ st log changed, (files.map Prod.fst).Nodup →
      ∀ nc ∈ files, lookupS (detectLoop hash files st log changed).1 nc.1
        = some (hash nc.2) := by
  induction files with
  | nil => intro st log changed _ nc hnc; cases hnc
  | cons p rest ih =>
    intro st log changed hnd nc hnc
    obtain ⟨name, content⟩ := p
    simp only [List.map_cons, List.nodup_cons] at hnd
    rcases List.mem_cons.mp hnc with hh | hmem
    · subst hh
      simp only [detectLoop]
      by_cases hold : lookupS st name = some (hash content)
      · rw [if_pos hold, detectLoop_lookup_not_mem hash rest _ _ _ _ hnd.1]
        exact hold
      · rw [if_neg hold, detectLoop_lookup_not_mem hash rest _ _ _ _ hnd.1]
        exact lookupS_insertS_self _ _ _
    · simp only [detectLoop]
      by_cases hold : lookupS st name = some (hash content)
      · rw [if_pos hold]
        exact ih _ _ _ hnd.2 nc hmem
      · rw [if_neg hold]
        exact ih _ _ _ hnd.2 nc hmem

lemma detectLoop_all_match (hash : String → String) (files : List (String × String)) :
    ∀ st log changed, (∀ nc ∈ files, lookupS st nc.1 = some (hash nc.2)) →
      detectLoop hash files st log changed = (st, log, changed) := by
  induction files with
  | nil => intro st log changed _; rfl
  | cons p rest ih =>
    intro st log changed hall
    obtain ⟨name, content⟩ := p
    have h1 := hall (name, content) (List.mem_cons_self _ _)
    simp only [detectLoop]
    rw [if_pos h1]
    exact ih st log changed (fun nc hnc => hall nc (List.mem_cons_of_mem _ hnc))

lemma detectLoop_changed_true (hash : String → String) (files : List (String × String)) :
    ∀ st log, (detectLoop hash files st log true).2.2 = true := by
  induction files with
  | nil => intro st log; rfl
  | cons p rest ih =>
    intro st log
    obtain ⟨name, content⟩ := p
    simp only [detectLoop]
    by_cases hold : lookupS st name = some (hash content)
    · rw [if_pos hold]; exact ih _ _
    · rw [if_neg hold]; exact ih _ _

lemma detectLoop_unchanged (hash : String → String) (files : List (String × String)) :
    ∀ st log, (detectLoop hash files st log false).2.2 = false →
      detectLoop hash files st log false = (st, log, false)
      ∧ ∀ nc ∈ files, lookupS st nc.1 = some (hash nc.2) := by
  induction files with
  | nil => intro st log _; exact ⟨rfl, by intro nc hnc; cases hnc⟩
  | cons p rest ih =>
    intro st log hc
    obtain ⟨name, content⟩ := p
    by_cases hold : lookupS st name = some (hash content)
    · have hrec : detectLoop hash ((name, content) :: rest) st log false
          = detectLoop hash rest st log false := by
        simp only [detectLoop]
        rw [if_pos hold]
      rw [hrec] at hc ⊢
      obtain ⟨he, hm⟩ := ih st log hc
      refine ⟨he, ?_⟩
      intro nc hnc
      rcases List.mem_cons.mp hnc with hh | hmem
      · subst hh; exact hold
      · exact hm nc hmem
    · exfalso
      have htrue : (detectLoop hash ((name, content) :: rest) st log false).2.2 = true := by
        simp only [detectLoop]
        rw [if_neg hold]
        exact detectLoop_changed_true hash rest _ _
      rw [hc] at htrue
      exact Bool.false_ne_true htrue

/-- After a run, every currently-present snapshot has a store entry equal to
its current digest. -/
lemma runDetector_lookup_mem (hash : String → String) (files : List (String × String))
    (st : List (String × String)) (log : List ChangeEntry)
    (hnd : (files.map Prod.fst).Nodup) :
    ∀ nc ∈ files, lookupS (runDetector hash files st log).1 nc.1 = some (hash nc.2) := by
  intro nc hnc
  unfold runDetector
  by_cases hemp : files.isEmpty
  · rw [List.isEmpty_iff.mp hemp] at hnc
    cases hnc
  · rw [if_neg hemp]
    by_cases hch : (detectLoop hash files st log false).2.2 = true
    · simp only [hch, if_true]
      exact detectLoop_lookup_mem hash files st log false hnd nc hnc
    · have hfalse : (detectLoop hash files st log false).2.2 = false :=
        Bool.eq_false_iff.mpr hch
      obtain ⟨_, hm⟩ := detectLoop_unchanged hash files st log hfalse
      simp only [hfalse, Bool.false_eq_true, if_false]
      exact hm nc hnc

/-- A run never touches store entries whose filename is not currently present
(stale entries survive). -/
lemma runDetector_lookup_not_mem (hash : String → String) (files : List (String × String))
    (st : List (String × String)) (log : List ChangeEntry)
    (k : String) (hk : k ∉ files.map Prod.fst) :
    lookupS (runDetector hash files st log).1 k = lookupS st k := by
  unfold runDetector
  by_cases hemp : files.isEmpty
  · rw [if_pos hemp]
  · rw [if_neg hemp]
    by_cases hch : (detectLoop hash files st log false).2.2 = true
    · simp only [hch, if_true]
      exact detectLoop_lookup_not_mem hash files st log false k hk
    · have hfalse : (detectLoop hash files st log false).2.2 = false :=
        Bool.eq_false_iff.mpr hch
      simp only [hfalse, Bool.false_eq_true, if_false]

/-! ## ingest.py

`embed_texts` wraps one embedding call in a retry loop:

    for attempt in range(MAX_RETRIES):
        try:
            resp = client.embeddings.create(...)
            return [d.embedding for d in resp.data]
        except OpenAIError as e:
            is_rate = "rate limit" in msg.lower() or http_status == 429
            is_quota = ...                      # computed but never used
            backoff = INITIAL_BACKOFF * (2 ** attempt)
            if attempt + 1 < MAX_RETRIES and (is_rate or retryable):
                time.sleep(backoff); continue
            else:
                raise

The external service is an oracle mapping the attempt number to an outcome;
an error outcome carries the code's two classification booleans (`is_rate`
and the `retryable` attribute).  Sleeping is modelled by recording the exact
backoff durations (floats `1.0 * 2**k` are exact, modelled in `ℚ`); an
escaped exception (raise, or the unreachable fall-through `RuntimeError`) is
modelled as `none`. -/

/-- One outcome of calling the embedding service. -/
inductive EmbedOutcome (V : Type) where
  | ok (vectors : V)
  | err (isRate : Bool) (retryable : Bool)
  deriving DecidableEq

def MAX_RETRIES : Nat := 6

def INITIAL_BACKOFF : ℚ := 1

/-- The retry loop of `embed_texts` (ingest.py lines 116–139): current attempt
number and remaining loop iterations; returns the sleeps performed and either
the successful response or `none` for an escaped exception. -/
def embedGo {V : Type} (service : Nat → EmbedOutcome V) :
    Nat → Nat → List ℚ × Option V
  | _, 0 => ([], none)
  | attempt, remaining + 1 =>
    match service attempt with
    | EmbedOutcome.ok v => ([], some v)
    | EmbedOutcome.err isRate retryable =>
      if attempt + 1 < MAX_RETRIES ∧ (isRate = true ∨ retryable = true) then
        (INITIAL_BACKOFF * 2 ^ attempt :: (embedGo service (attempt + 1) remaining).1,
         (embedGo service (attempt + 1) remaining).2)
      else ([], none)

/-- `embed_texts` for one batch: the loop starting at attempt 0 with
`MAX_RETRIES` iterations available. -/
def embed_texts {V : Type} (service : Nat → EmbedOutcome V) : List ℚ × Option V :=
  embedGo service 0 MAX_RETRIES

/-- One line of `embeddings.jsonl`: `{id, text, embedding}`. -/
structure EmbRecord (V : Type) where
  id : String
  text : String
  embedding : V
  deriving DecidableEq, Repr

def BATCH_SIZE : Nat := 16

/-- `batches(lst, n)` (ingest.py lines 101–104): `lst[i:i+n]` for
`i = 0, n, 2n, …`.  Only invoked with `n = BATCH_SIZE = 16 ≥ 1`. -/
def batchesOf {α : Type} (n : Nat) : List α → List (List α)
  | [] => []
  | x :: xs => ((x :: xs).take n) :: batchesOf n (xs.drop (n - 1))
termination_by l => l.length
decreasing_by simp [List.length_drop]; omega

/-- The batch loop of `main()` (ingest.py lines 172–189): each batch is
embedded via `embed_texts` (the oracle's first argument is the batch index);
the first escaped exception aborts the whole run (`return` inside `except`),
otherwise every item is paired with its vector in order and appended to
`out_lines`. -/
def batchLoop {V : Type} (service : Nat → Nat → EmbedOutcome (List V)) :
    Nat → List (List (String × String)) → Option (List (EmbRecord V))
  | _, [] => some []
  | i, b :: rest =>
    match (embed_texts (service i)).2 with
    | none => none
    | some vecs =>
      match batchLoop service (i + 1) rest with
      | none => none
      | some more =>
        some (List.zipWith (fun it v => EmbRecord.mk it.1 it.2 v) b vecs ++ more)

/-- Final state of `embeddings.jsonl` after `main()`. -/
inductive IngestOutcome (F : Type) (V : Type) where
  | untouched (old : F)
  | written (recs : List (EmbRecord V))
  deriving DecidableEq

/-- `main()` (ingest.py lines 167–193) restricted to its effect on the output
file, given the already-extracted `(id, text)` chunk items: early return with
the file untouched when there are no items, abort with the file untouched when
any batch fails, and a single write of all records only after every batch
succeeded. -/
def ingestMain {F V : Type} (allChunks : List (String × String))
    (service : Nat → Nat → EmbedOutcome (List V)) (oldFile : F) : IngestOutcome F V :=
  if allChunks.isEmpty then IngestOutcome.untouched oldFile
  else
    match batchLoop service 0 (batchesOf BATCH_SIZE allChunks) with
    | none => IngestOutcome.untouched oldFile
    | some recs => IngestOutcome.written recs

lemma batchLoop_none_of_fail {V : Type} (service : Nat → Nat → EmbedOutcome (List V)) :
    ∀ (bs : List (List (String × String))) (i j : Nat), j < bs.length →
      (embed_texts (service (i + j))).2 = none → batchLoop service i bs = none := by
  intro bs
  induction bs with
  | nil => intro i j hj _; simp at hj
  | cons b rest ih =>
    intro i j hj hfail
    simp only [batchLoop]
    cases hcall : (embed_texts (service i)).2 with
    | none => rfl
    | some vecs =>
      cases j with
      | zero =>
        rw [Nat.add_zero] at hfail
        rw [hfail] at hcall
        cases hcall
      | succ j =>
        have hrec : batchLoop service (i + 1) rest = none := by
          apply ih (i + 1) j (by simpa using hj)
          have e : i + 1 + j = i + (j + 1) := by omega
          rw [e]
          exact hfail
        rw [hrec]

/-! ## Credentials at startup

The process environment is modelled as a function from variable names to
optional values, as read by os.getenv.  Python truthiness of such a value
(the test `if not api_key`) is false for both None and the empty string. -/

/-- Python truthiness of an os.getenv result. -/
def pyTruthyStr : Option String → Bool
  | none => false
  | some s => !s.isEmpty

/-- `create_client()` (ingest.py lines 108–113): read OPENAI_API_KEY, raise
RuntimeError when falsy, otherwise construct the client from the key. -/
def create_client (env : String → Option String) : Except String String :=
  if pyTruthyStr (env "OPENAI_API_KEY") then
    Except.ok ((env "OPENAI_API_KEY").getD "")
  else
    Except.error "OPENAI_API_KEY not set in environment. Put it into .env or export in shell."

/-- Module startup of retriever_api.py (lines 14–18): read both keys, raise
SystemExit when either is falsy, otherwise keep both. -/
def retriever_init (env : String → Option String) : Except String (String × String) :=
  if !pyTruthyStr (env "OPENAI_API_KEY") || !pyTruthyStr (env "PINECONE_API_KEY") then
    Except.error "Please set OPENAI_API_KEY and PINECONE_API_KEY in .env"
  else
    Except.ok ((env "OPENAI_API_KEY").getD "", (env "PINECONE_API_KEY").getD "")

/-- Steps of upsert_pinecone.py taken during module init, up to and including
its first network request. -/
inductive UpsertAction where
  | constructClient (apiKey : Option String)
  | listIndexes
  deriving DecidableEq, Repr

/-- Module init of upsert_pinecone.py (lines 1–17): load_dotenv, read
PINECONE_API_KEY, pass whatever was read — present or not — straight to the
Pinecone client constructor, then immediately call pc.list_indexes(), a
network request.  The module contains no check of the key anywhere; there is
no conditional between reading the key and the first network call. -/
def upsertInitActions (env : String → Option String) : List UpsertAction :=
  [UpsertAction.constructClient (env "PINECONE_API_KEY"), UpsertAction.listIndexes]

/-! ## retriever_api.py, the /retrieve handler

    body = request.get_json() or {}
    q = body.get("q", "")
    k = int(body.get("k", 5))
    if not q:
        return jsonify(error = missing-q-message), 400
    vec = embed_query(q)
    resp = index.query(vector=vec, top_k=k, include_metadata=True)

JSON scalars that can appear in the body are modelled as strings and
integers; int(x) succeeds on integers and on integer-shaped strings and
raises ValueError otherwise (modelled as none). -/

/-- A JSON scalar in the request body. -/
inductive JVal where
  | str (s : String)
  | num (n : Int)
  deriving DecidableEq, Repr

/-- body.get on the modelled JSON object. -/
def jLookup : List (String × JVal) → String → Option JVal
  | [], _ => none
  | (k, v) :: rest, key => if k = key then some v else jLookup rest key

/-- Digit-sequence accumulator used by the int(str) model. -/
def parseDigitsAux : List Char → Nat → Option Nat
  | [], acc => some acc
  | c :: cs, acc =>
    if c.isDigit then parseDigitsAux cs (acc * 10 + (c.toNat - 48)) else none

/-- Python int(str): an optional sign followed by at least one digit
(surrounding whitespace and underscores are not modelled); anything else
raises ValueError (none). -/
def pyIntOfChars : List Char → Option Int
  | [] => none
  | c :: cs =>
    if c = '-' then
      match cs with
      | [] => none
      | _ :: _ => (parseDigitsAux cs 0).map (fun n => -(n : Int))
    else if c = '+' then
      match cs with
      | [] => none
      | _ :: _ => (parseDigitsAux cs 0).map (fun n => (n : Int))
    else (parseDigitsAux (c :: cs) 0).map (fun n => (n : Int))

/-- Python int(x): integers pass through, strings are parsed, anything
unparsable raises ValueError (none). -/
def pyInt : JVal → Option Int
  | JVal.num n => some n
  | JVal.str s => pyIntOfChars s.data

/-- Python truthiness of a JSON scalar (the test `if not q`). -/
def jTruthy : JVal → Bool
  | JVal.str s => !s.isEmpty
  | JVal.num n => decide (n ≠ 0)

/-- Observable result of the /retrieve handler. -/
inductive RetrieveResult where
  | uncaughtExn
  | badRequest (err : String)
  | success (q : JVal) (k : Int)
  deriving DecidableEq, Repr

/-- The /retrieve handler (retriever_api.py lines 31–47).  `success q k`
means the handler went on to call embed_query and then index.query with
top_k = k; `badRequest` is the HTTP 400 response, produced with no embedding
call and no index query; `uncaughtExn` is an exception escaping the handler.
Note int(body.get("k", 5)) is evaluated before the `if not q` test. -/
def retrieve (body : List (String × JVal)) : RetrieveResult :=
  match pyInt ((jLookup body "k").getD (JVal.num 5)) with
  | none => RetrieveResult.uncaughtExn
  | some k =>
    if jTruthy ((jLookup body "q").getD (JVal.str "")) = false then
      RetrieveResult.badRequest "missing \x27q\x27 parameter"
    else
      RetrieveResult.success ((jLookup body "q").getD (JVal.str "")) k

/-! ## Claim theorems -/

lemma runDetector_of_all_match (hash : String → String) (files st : List (String × String))
    (log : List ChangeEntry)
    (hmatch : ∀ nc ∈ files, lookupS st nc.1 = some (hash nc.2)) :
    runDetector hash files st log = (st, log) := by
  unfold runDetector
  by_cases hemp : files.isEmpty
  · rw [if_pos hemp]
  · rw [if_neg hemp, detectLoop_all_match hash files st log false hmatch]
    rfl

/-- C1 counterexample: an input of exactly 3000 characters chunked with
size 3000 and overlap 600 yields two fragments, not the single fragment the
claim asserts (the second fragment is the redundant slice text[2400:5400]). -/
theorem chunk_text_3000_not_one_fragment :
    (chunk_text (List.replicate 3000 'a') 3000 600).length = 2
    ∧ (chunk_text (List.replicate 3000 'a') 3000 600).length ≠ 1 := by
  have h := chunk_text_length (List.replicate 3000 'a') 3000 600 (by norm_num)
  rw [List.length_replicate] at h
  norm_num at h
  exact ⟨h, by rw [h]; norm_num⟩

/-- C1 (amended): for 0 ≤ overlap < size, chunk_text produces exactly
⌈L / (size − overlap)⌉ fragments (so 0 fragments when L = 0) — not
⌈(L − overlap)/(size − overlap)⌉, and the loop only stops once a start offset
reaches the text length, not when start + size does; an input of exactly 3000
characters with size 3000 and overlap 600 therefore yields two fragments,
the whole text followed by its final 600 characters text[2400:3000]. -/
theorem chunk_text_fragment_count (text scenario : List Char) (size overlap : Nat)
    (h : overlap < size) (hs : scenario.length = 3000) :
    (chunk_text text size overlap).length
        = (text.length + (size - overlap) - 1) / (size - overlap)
    ∧ chunk_text scenario 3000 600
        = [pySlice scenario 0 3000, pySlice scenario 2400 3000] :=
  ⟨chunk_text_length text size overlap h, chunk_text_3000_run scenario hs⟩

/-- C1 witness. -/
theorem chunk_text_fragment_count_witness :
    (chunk_text ['a', 'b', 'c'] 2 1).length = (3 + (2 - 1) - 1) / (2 - 1)
    ∧ chunk_text (List.replicate 3000 'a') 3000 600
        = [pySlice (List.replicate 3000 'a') 0 3000,
           pySlice (List.replicate 3000 'a') 2400 3000] :=
  chunk_text_fragment_count ['a', 'b', 'c'] (List.replicate 3000 'a') 2 1
    (by norm_num) (List.length_replicate 3000 'a')

/-- C2: for 0 ≤ overlap < size, concatenating the fragments of chunk_text
with every fragment after the first trimmed of its first overlap characters
reconstructs the input exactly; a 3600-character input with size 3000 and
overlap 600 yields exactly the fragments text[0:3000] and text[2400:3600],
sharing the overlap region text[2400:3000]. -/
theorem chunk_text_reconstruction (text scenario : List Char) (size overlap : Nat)
    (h : overlap < size) (hs : scenario.length = 3600) :
    chunkTrimConcat (chunk_text text size overlap) overlap = text
    ∧ chunk_text scenario 3000 600
        = [pySlice scenario 0 3000, pySlice scenario 2400 3600] :=
  ⟨chunk_text_trimConcat text size overlap h, chunk_text_3600_run scenario hs⟩

/-- C2 witness. -/
theorem chunk_text_reconstruction_witness :
    chunkTrimConcat (chunk_text ['a', 'b', 'c'] 2 1) 1 = ['a', 'b', 'c']
    ∧ chunk_text (List.replicate 3600 'a') 3000 600
        = [pySlice (List.replicate 3600 'a') 0 3000,
           pySlice (List.replicate 3600 'a') 2400 3600] :=
  chunk_text_reconstruction ['a', 'b', 'c'] (List.replicate 3600 'a') 2 1
    (by norm_num) (List.length_replicate 3600 'a')

/-- C9: with 0 ≤ overlap < size the chunk_text loop terminates: its result is
already reached with text.length + 1 fuel and is unchanged under any larger
fuel bound, because every iteration advances start by size − overlap ≥ 1 (the
negative-clamp branch never fires under this precondition, see the model
comment on chunkTextFuel). -/
theorem chunk_text_terminates (text : List Char) (size overlap fuel : Nat)
    (h : overlap < size) (hf : text.length < fuel) :
    chunkTextFuel text size overlap fuel 0 = chunk_text text size overlap
    ∧ 0 < size - overlap :=
  ⟨(chunk_text_eq_fuel text size overlap h fuel hf).symm, by omega⟩

/-- C9 witness. -/
theorem chunk_text_terminates_witness :
    chunkTextFuel ['a', 'b', 'c'] 2 1 9 0 = chunk_text ['a', 'b', 'c'] 2 1
    ∧ 0 < 2 - 1 :=
  chunk_text_terminates ['a', 'b', 'c'] 2 1 9 (by norm_num) (by norm_num)

/-- C3 counterexample: starting from a store holding an entry for a
since-deleted snapshot (gone.html) and a snapshot directory containing only
a.html, the store after the run still contains the stale gone.html entry, so
it does not contain exactly one entry per currently-present snapshot file. -/
theorem detector_retains_stale_entry :
    lookupS (runDetector (fun c => c) [("a.html", "x")] [("gone.html", "h0")] []).1 "gone.html"
        = some "h0"
    ∧ "gone.html" ∉ ["a.html"] := by
  decide

/-- C3 (amended): after any run of the change detector, every snapshot file
currently present in the directory has its current SHA-256 digest recorded in
the hash-record store, and any entry whose filename is not among the present
snapshots is carried over from the prior store unchanged — stale entries for
deleted files are never removed, so the store need not contain exactly one
entry per currently-present file. -/
theorem detector_store_after_run (hash : String → String)
    (files st : List (String × String)) (log : List ChangeEntry)
    (name content k : String)
    (hnd : (files.map Prod.fst).Nodup) (hmem : (name, content) ∈ files)
    (hk : k ∉ files.map Prod.fst) :
    lookupS (runDetector hash files st log).1 name = some (hash content)
    ∧ lookupS (runDetector hash files st log).1 k = lookupS st k :=
  ⟨runDetector_lookup_mem hash files st log hnd (name, content) hmem,
   runDetector_lookup_not_mem hash files st log k hk⟩

/-- C3 witness. -/
theorem detector_store_after_run_witness :
    lookupS (runDetector (fun c => c) [("a.html", "x")] [("gone.html", "h0")] []).1 "a.html"
        = some ((fun c => c) "x")
    ∧ lookupS (runDetector (fun c => c) [("a.html", "x")] [("gone.html", "h0")] []).1 "gone.html"
        = lookupS [("gone.html", "h0")] "gone.html" :=
  detector_store_after_run (fun c => c) [("a.html", "x")] [("gone.html", "h0")] []
    "a.html" "x" "gone.html" (by decide) (by decide) (by decide)

/-- C6: change detection is idempotent — running the detector a second time
over the same snapshot contents, starting from the store and changelog the
first run produced, returns both unchanged; in particular the second run
appends no changelog entry. -/
theorem change_detection_idempotent (hash : String → String)
    (files st : List (String × String)) (log : List ChangeEntry)
    (hnd : (files.map Prod.fst).Nodup) :
    runDetector hash files (runDetector hash files st log).1 (runDetector hash files st log).2
      = runDetector hash files st log := by
  have hmatch : ∀ nc ∈ files,
      lookupS (runDetector hash files st log).1 nc.1 = some (hash nc.2) :=
    runDetector_lookup_mem hash files st log hnd
  rw [runDetector_of_all_match hash files _ _ hmatch]

/-- C6 witness. -/
theorem change_detection_idempotent_witness :
    runDetector (fun c => c) [("a.html", "x")]
        (runDetector (fun c => c) [("a.html", "x")] [] []).1
        (runDetector (fun c => c) [("a.html", "x")] [] []).2
      = runDetector (fun c => c) [("a.html", "x")] [] [] :=
  change_detection_idempotent (fun c => c) [("a.html", "x")] [] [] (by decide)

/-- C4 counterexample: with PINECONE_API_KEY absent from the environment, the
upsert_pinecone module performs no fatal check: it constructs the external
client with the missing key and its very next action is the list-indexes
network request, so the vector index upserter does not fail before contacting
the vector database. -/
theorem upsert_missing_key_still_calls_network :
    upsertInitActions (fun _ => none)
        = [UpsertAction.constructClient none, UpsertAction.listIndexes]
    ∧ UpsertAction.listIndexes ∈ upsertInitActions (fun _ => none) :=
  ⟨rfl, by decide⟩

/-- C4 (amended): the embedding-ingest stage (create_client raises
RuntimeError) and the retrieval service (module startup raises SystemExit) do
treat a missing or empty credential as a fatal error reported before any
network call — the retrieval service fails when its embedding-service key is
falsy (environment `env`) and equally when its vector-database key alone is
falsy (environment `envP`, whose OPENAI_API_KEY may well be present) — but
the vector index upserter performs no such check: whatever value — present or
absent — was read for PINECONE_API_KEY is passed straight to the external
client constructor, immediately followed by the list-indexes network
request. -/
theorem credential_checks_at_startup (env envP : String → Option String)
    (ho : pyTruthyStr (env "OPENAI_API_KEY") = false)
    (hp : pyTruthyStr (envP "PINECONE_API_KEY") = false) :
    create_client env = Except.error
        "OPENAI_API_KEY not set in environment. Put it into .env or export in shell."
    ∧ retriever_init env = Except.error
        "Please set OPENAI_API_KEY and PINECONE_API_KEY in .env"
    ∧ retriever_init envP = Except.error
        "Please set OPENAI_API_KEY and PINECONE_API_KEY in .env"
    ∧ upsertInitActions envP
        = [UpsertAction.constructClient (envP "PINECONE_API_KEY"), UpsertAction.listIndexes] := by
  refine ⟨?_, ?_, ?_, rfl⟩
  · unfold create_client
    rw [ho]
    rfl
  · unfold retriever_init
    rw [ho]
    rfl
  · unfold retriever_init
    rw [hp]
    rw [if_pos (by simp)]

/-- C4 witness: `env` lacks both keys; `envP` has OPENAI_API_KEY present and
only PINECONE_API_KEY absent, exercising the vector-database-key-only failure
of the retrieval service. -/
theorem credential_checks_at_startup_witness :
    create_client (fun _ => none) = Except.error
        "OPENAI_API_KEY not set in environment. Put it into .env or export in shell."
    ∧ retriever_init (fun _ => none) = Except.error
        "Please set OPENAI_API_KEY and PINECONE_API_KEY in .env"
    ∧ retriever_init (fun v => if v = "OPENAI_API_KEY" then some "sk-test" else none)
        = Except.error "Please set OPENAI_API_KEY and PINECONE_API_KEY in .env"
    ∧ upsertInitActions (fun v => if v = "OPENAI_API_KEY" then some "sk-test" else none)
        = [UpsertAction.constructClient none, UpsertAction.listIndexes] :=
  credential_checks_at_startup (fun _ => none)
    (fun v => if v = "OPENAI_API_KEY" then some "sk-test" else none) rfl (by decide)

/-- C5: per batch, the embedding call is retried only on a retryable error,
sleeping with exponential backoff INITIAL_BACKOFF * 2^attempt = 1.0, 2.0,
4.0, … time-units, with at most MAX_RETRIES = 6 attempts in total: rate-limit
errors on attempts 1 and 2 followed by success on attempt 3 sleep exactly 1.0
and 2.0 and return that batch response once; six rate-limit errors sleep
1, 2, 4, 8, 16 and then abort; a non-retryable error aborts immediately. -/
theorem embed_texts_backoff_retry {V : Type}
    (service exhaust fatal : Nat → EmbedOutcome V) (v : V)
    (h0 : service 0 = EmbedOutcome.err true false)
    (h1 : service 1 = EmbedOutcome.err true false)
    (h2 : service 2 = EmbedOutcome.ok v)
    (hex : ∀ i, exhaust i = EmbedOutcome.err true false)
    (hfa : fatal 0 = EmbedOutcome.err false false) :
    embed_texts service = ([1, 2], some v)
    ∧ embed_texts exhaust = ([1, 2, 4, 8, 16], none)
    ∧ embed_texts fatal = ([], none) := by
  refine ⟨?_, ?_, ?_⟩
  · simp [embed_texts, embedGo, MAX_RETRIES, INITIAL_BACKOFF, h0, h1, h2]
  · simp [embed_texts, embedGo, MAX_RETRIES, INITIAL_BACKOFF, hex]
    norm_num
  · simp [embed_texts, embedGo, MAX_RETRIES, INITIAL_BACKOFF, hfa]

/-- C5 witness. -/
theorem embed_texts_backoff_retry_witness :
    embed_texts (fun i => if i < 2 then EmbedOutcome.err true false
        else EmbedOutcome.ok (0 : Nat)) = ([1, 2], some 0)
    ∧ embed_texts (fun _ => (EmbedOutcome.err true false : EmbedOutcome Nat))
        = ([1, 2, 4, 8, 16], none)
    ∧ embed_texts (fun _ => (EmbedOutcome.err false false : EmbedOutcome Nat))
        = ([], none) :=
  embed_texts_backoff_retry
    (fun i => if i < 2 then EmbedOutcome.err true false else EmbedOutcome.ok (0 : Nat))
    (fun _ => EmbedOutcome.err true false) (fun _ => EmbedOutcome.err false false) 0
    rfl rfl rfl (fun _ => rfl) rfl

/-- C8: the ingest run is atomic in its output file: embeddings.jsonl is
written once, only after every batch was embedded successfully; if the
embedding of any batch fails (non-retryable error or retry exhaustion,
i.e. embed_texts returns no response for some batch index), main returns with
the output file untouched, preserving whatever it contained before. -/
theorem ingest_output_untouched_on_failure {F V : Type}
    (allChunks : List (String × String))
    (service : Nat → Nat → EmbedOutcome (List V)) (oldFile : F) (j : Nat)
    (hj : j < (batchesOf BATCH_SIZE allChunks).length)
    (hfail : (embed_texts (service j)).2 = none) :
    ingestMain allChunks service oldFile = IngestOutcome.untouched oldFile := by
  have hnil : ¬allChunks.isEmpty = true := by
    intro he
    rw [List.isEmpty_iff.mp he] at hj
    simp [batchesOf] at hj
  have hnone : batchLoop service 0 (batchesOf BATCH_SIZE allChunks) = none := by
    apply batchLoop_none_of_fail service _ 0 j hj
    simpa using hfail
  unfold ingestMain
  rw [if_neg hnil, hnone]

/-- C8 witness. -/
theorem ingest_output_untouched_on_failure_witness :
    ingestMain [("c1", "t1")]
        (fun _ _ => (EmbedOutcome.err false false : EmbedOutcome (List Nat))) "old file"
      = IngestOutcome.untouched "old file" :=
  ingest_output_untouched_on_failure [("c1", "t1")]
    (fun _ _ => EmbedOutcome.err false false) "old file" 0
    (by simp [batchesOf, BATCH_SIZE]) rfl

/-- C7 counterexample: the request body with q absent and k = "abc" has an
empty/missing q field, yet the handler raises an uncaught ValueError from
int(...) instead of returning the documented HTTP 400 error body. -/
theorem retrieve_missing_q_nonint_k_raises :
    retrieve [("k", JVal.str "abc")] = RetrieveResult.uncaughtExn
    ∧ retrieve [("k", JVal.str "abc")]
        ≠ RetrieveResult.badRequest "missing \x27q\x27 parameter" := by
  decide

/-- C7 (amended): for every request body whose q field is missing or falsy
and whose k value is absent or convertible by int(), the /retrieve handler
returns HTTP 400 with the documented error body and performs no embedding
call and no vector-index query; when k is present but not int-convertible the
handler instead raises before the q check. -/
theorem retrieve_missing_q_returns_400 (body : List (String × JVal)) (k : Int)
    (hq : jTruthy ((jLookup body "q").getD (JVal.str "")) = false)
    (hk : pyInt ((jLookup body "k").getD (JVal.num 5)) = some k) :
    retrieve body = RetrieveResult.badRequest "missing \x27q\x27 parameter" := by
  unfold retrieve
  rw [hk]
  show (if jTruthy ((jLookup body "q").getD (JVal.str "")) = false
      then RetrieveResult.badRequest "missing \x27q\x27 parameter"
      else RetrieveResult.success ((jLookup body "q").getD (JVal.str "")) k)
    = RetrieveResult.badRequest "missing \x27q\x27 parameter"
  rw [if_pos hq]

/-- C7 witness. -/
theorem retrieve_missing_q_returns_400_witness :
    retrieve [("q", JVal.str ""), ("k", JVal.num 5)]
      = RetrieveResult.badRequest "missing \x27q\x27 parameter" :=
  retrieve_missing_q_returns_400 [("q", JVal.str ""), ("k", JVal.num 5)] 5 rfl rfl

/-- C10: int(body.get("k", 5)) is evaluated before the q check, so for every
request body whose k value is not int-convertible the handler raises an
uncaught exception — including bodies whose q is missing or empty — and hence
the documented 400 response can only be produced when k is absent or
int-convertible. -/
theorem retrieve_k_parsed_before_q_check (body : List (String × JVal))
    (hk : pyInt ((jLookup body "k").getD (JVal.num 5)) = none) :
    retrieve body = RetrieveResult.uncaughtExn := by
  unfold retrieve
  rw [hk]

/-- C10 witness. -/
theorem retrieve_k_parsed_before_q_check_witness :
    retrieve [("k", JVal.str "five")] = RetrieveResult.uncaughtExn :=
  retrieve_k_parsed_before_q_check [("k", JVal.str "five")] rfl

end CapriAI
